import Mathlib

/-!
Verification of the SQL statement validator and access-control engine of the
postgres-mcp repository (`src/services/sql_validator.py`).

The validator's text processing (comment stripping, the regex keyword
denylist, the CTE scan) and its decision pipeline are embedded as executable
Lean functions over SQL text represented as lists of Unicode code points
(`Text := List Nat`, mirroring Python `str` as a sequence of code points;
the relevant character classes `\w`, `\s`, case folding are modelled over the
ASCII range, which covers every identifier and keyword the validator deals
with).  The external statement parser (`sqlglot.parse`) is modelled as an
oracle `Text → Except Nat (List Ast)` over an abstract AST carrying exactly
the structure the repository's own code inspects: node class names, `Table`
nodes with name/alias/db, `Column` nodes, `Select` nodes with a `from`
argument, and generic interior nodes.
-/

/-- SQL text as a list of Unicode code points (Python `str`). -/
abbrev Text := List Nat

/-- Convert a Lean string literal to `Text` (for concrete inputs). -/
def txt (s : String) : Text := s.data.map Char.toNat

/-- Python `\s` (ASCII range): space, tab, newline, carriage return,
vertical tab, form feed. -/
def isSpaceCp (n : Nat) : Bool :=
  n = 32 || n = 9 || n = 10 || n = 13 || n = 11 || n = 12

/-- Python `\w` (ASCII range): letters, digits, underscore. -/
def isWordCp (n : Nat) : Bool :=
  (48 ≤ n && n ≤ 57) || (65 ≤ n && n ≤ 90) || (97 ≤ n && n ≤ 122) || n = 95

/-- ASCII lower-casing of one code point (Python `str.lower`). -/
def lowerCp (n : Nat) : Nat := if 65 ≤ n ∧ n ≤ 90 then n + 32 else n

/-- ASCII upper-casing of one code point (Python `str.upper`), also used as
the case folding of `re.IGNORECASE` matching. -/
def upperCp (n : Nat) : Nat := if 97 ≤ n ∧ n ≤ 122 then n - 32 else n

/-- Python `str.lower` on a whole string. -/
def lowerText (s : Text) : Text := s.map lowerCp

/-- Python `str.upper` on a whole string. -/
def upperText (s : Text) : Text := s.map upperCp

/-- Skip past the first `*/`; `none` when the comment is never closed.
Models how `re.sub(r"/\*.*?\*/", ...)` finds the nearest closing delimiter
(non-greedy body). -/
def afterBlockClose : Text → Option Text
  | [] => none
  | [_] => none
  | a :: b :: rest =>
      if a = 42 ∧ b = 47 then some rest else afterBlockClose (b :: rest)

/-- Remove `/* ... */` comments: `re.sub(r"/\*.*?\*/", "", sql, flags=re.DOTALL)`,
with a fuel parameter (initialised to the text length, which bounds the
number of scanning steps) so that the definition is structurally recursive.
An opener with no closer is left in place, exactly as the regex leaves
unmatched text untouched. -/
def stripBlockAux : Nat → Text → Text
  | 0, l => l
  | _ + 1, [] => []
  | fuel + 1, 47 :: 42 :: rest =>
      (match afterBlockClose rest with
       | some rest' => stripBlockAux fuel rest'
       | none => 47 :: stripBlockAux fuel (42 :: rest))
  | fuel + 1, a :: rest => a :: stripBlockAux fuel rest

/-- Remove block comments from the whole text. -/
def stripBlockComments (l : Text) : Text := stripBlockAux l.length l

mutual
/-- Remove `-- ...` line comments (`re.sub(r"--.*$", "", sql, flags=re.MULTILINE)`):
on `--`, drop the rest of the line. -/
def stripLineComments : Text → Text
  | [] => []
  | 45 :: 45 :: rest => dropCommentTail rest
  | a :: rest => a :: stripLineComments rest

/-- Inside a line comment: drop up to the next newline (which `$`/`.` leave
in place), then resume. -/
def dropCommentTail : Text → Text
  | [] => []
  | 10 :: rest => 10 :: stripLineComments rest
  | _ :: rest => dropCommentTail rest
end

/-- Python `str.strip()` (ASCII whitespace). -/
def stripEnds (l : Text) : Text :=
  ((l.dropWhile isSpaceCp).reverse.dropWhile isSpaceCp).reverse

/-- `SQLValidator._remove_comments`: strip block comments, then line
comments, then surrounding whitespace. -/
def removeComments (sql : Text) : Text :=
  stripEnds (stripLineComments (stripBlockComments sql))

/-- Boundary condition of `\b` at the start of a match: start of text or a
preceding non-word character (the keyword patterns begin and end with word
characters, so `\b` reduces to this). -/
def boundaryB : Option Nat → Bool
  | none => true
  | some c => !isWordCp c

/-- Match a keyword (given upper-cased) at the head of `s` under
`re.IGNORECASE`, requiring a word boundary right after it:
the `KW\b` part of a pattern `\bKW\b`. -/
def matchWordCI : Text → Text → Bool
  | [], [] => true
  | [], c :: _ => !isWordCp c
  | _ :: _, [] => false
  | k :: ks, c :: cs => (upperCp c = k : Bool) && matchWordCI ks cs

/-- Search from the current position (with the previous code point as
boundary context) for a whole-word, case-insensitive occurrence of `kw`. -/
def containsWordFrom (kw : Text) : Option Nat → Text → Bool
  | prev, [] => boundaryB prev && matchWordCI kw []
  | prev, c :: rest =>
      (boundaryB prev && matchWordCI kw (c :: rest)) ||
        containsWordFrom kw (some c) rest

/-- `re.search(r"\bKW\b", s, re.IGNORECASE)` for a keyword `KW`. -/
def containsWord (kw s : Text) : Bool := containsWordFrom kw none s

/-- Exact literal match at the head of the text, returning the remainder. -/
def matchLit : Text → Text → Option Text
  | [], s => some s
  | _ :: _, [] => none
  | k :: ks, c :: cs => if c = k then matchLit ks cs else none

/-- Case-insensitive literal match at the head (pattern given upper-cased),
returning the remainder. -/
def matchLitCI : Text → Text → Option Text
  | [], s => some s
  | _ :: _, [] => none
  | k :: ks, c :: cs => if upperCp c = k then matchLitCI ks cs else none

/-- Scan one line for `\bDROP\b` (case-insensitive), `prev` being the code
point just before the current position; stops at a newline because the `.*`
between `WITH\s+` and `\bDROP\b` cannot cross one (no `re.DOTALL` on the
keyword patterns). -/
def wordDropInLine : Nat → Text → Bool
  | _, [] => false
  | prev, c :: rest =>
      if c = 10 then false
      else
        ((!isWordCp prev) && matchWordCI (txt "DROP") (c :: rest)) ||
          wordDropInLine c rest

/-- After `WITH` and at least one `\s` character (whose code point is
`prev`), match `\s*.*\bDROP\b`: either `DROP` occurs on the current line, or
one more whitespace character is consumed first. -/
def withDropAfterWs : Nat → Text → Bool
  | prev, [] => wordDropInLine prev []
  | prev, c :: rest =>
      wordDropInLine prev (c :: rest) || (isSpaceCp c && withDropAfterWs c rest)

/-- Whether `\bWITH\s+.*\bDROP\b` matches starting exactly at the head of
`s`, with `prev` the preceding code point. -/
def withDropHere (prev : Option Nat) (s : Text) : Bool :=
  match (if boundaryB prev then matchLitCI (txt "WITH") s else none) with
  | some (c :: rest) => isSpaceCp c && withDropAfterWs c rest
  | _ => false

/-- `re.search(r"\bWITH\s+.*\bDROP\b", s, re.IGNORECASE)`. -/
def containsWithDropFrom : Option Nat → Text → Bool
  | prev, [] => withDropHere prev []
  | prev, c :: rest =>
      withDropHere prev (c :: rest) || containsWithDropFrom (some c) rest

/-- The twelve single-keyword entries of `SQLValidator.FORBIDDEN_PATTERNS`
(each compiled as `\bKW\b` with `re.IGNORECASE`). -/
def forbiddenKeywords : List Text :=
  [txt "INSERT", txt "UPDATE", txt "DELETE", txt "DROP", txt "TRUNCATE",
   txt "ALTER", txt "CREATE", txt "GRANT", txt "REVOKE", txt "EXECUTE",
   txt "CONNECT", txt "USE"]

/-- Step 2 of `SQLValidator.validate`: some compiled forbidden pattern
matches the cleaned SQL (the twelve keyword patterns plus the composite
`\bWITH\s+.*\bDROP\b` pattern). -/
def scanForbidden (s : Text) : Bool :=
  forbiddenKeywords.any (fun kw => containsWord kw s) ||
    containsWithDropFrom none s

/-- Python substring test `kw in s`. -/
def startsWithT (p s : Text) : Bool := (matchLit p s).isSome

/-- Python substring containment `p in s`. -/
def containsSub (p : Text) : Text → Bool
  | [] => (p = [] : Bool)
  | c :: rest => startsWithT p (c :: rest) || containsSub p rest

/-- Try the pattern `WITH\s+(\w+)\s+AS\s*\([^)]*([^\)]*)\)` at the head of
`s` (already upper-cased, so the literals match exactly), returning the
second capture group on success.  Quantifiers are resolved exactly as the
backtracking engine does: each `\s+`/`\w+`/`\s*` takes its maximal run (its
character class is disjoint from what must follow), the first `[^)]*` is
greedy, and the second — the capture — receives what remains before the
closing parenthesis. -/
def matchCteAt (s : Text) : Option Text :=
  match matchLit (txt "WITH") s with
  | none => none
  | some [] => none
  | some (c :: r2) =>
      if isSpaceCp c then
        if (r2.dropWhile isSpaceCp).takeWhile isWordCp = [] then none
        else
          match (r2.dropWhile isSpaceCp).dropWhile isWordCp with
          | [] => none
          | d :: r5 =>
              if isSpaceCp d then
                match matchLit (txt "AS") (r5.dropWhile isSpaceCp) with
                | none => none
                | some r7 =>
                    match r7.dropWhile isSpaceCp with
                    | 40 :: r9 =>
                        match r9.dropWhile (fun n => !(n = 41 : Bool)) with
                        | 41 :: _ =>
                            some ((r9.dropWhile (fun n => !(n = 41 : Bool))).takeWhile
                              (fun n => !(n = 41 : Bool)))
                        | _ => none
                    | _ => none
              else none
      else none

/-- Leftmost search for the CTE pattern over the whole text
(`re.search` semantics), returning the second capture group. -/
def cteSearch : Text → Option Text
  | [] => matchCteAt []
  | c :: rest =>
      match matchCteAt (c :: rest) with
      | some g => some g
      | none => cteSearch rest

/-- The `dangerous_keywords` list of `_contains_forbidden_cte`. -/
def dangerousCteKeywords : List Text :=
  [txt "DROP", txt "DELETE", txt "INSERT", txt "UPDATE", txt "ALTER"]

/-- `SQLValidator._contains_forbidden_cte`: upper-case the text, search for
the `WITH <name> AS (...)` pattern, and test the captured body for the
dangerous keywords by substring containment. -/
def containsForbiddenCte (sql : Text) : Bool :=
  match cteSearch (upperText sql) with
  | some cteBody => dangerousCteKeywords.any (fun kw => containsSub kw cteBody)
  | none => false

/-- Abstract syntax tree of a parsed statement, carrying exactly the
structure `SQLValidator` inspects on sqlglot expressions: `Table` nodes with
`name`/`alias`/`db` (empty text for an absent alias or schema, as sqlglot
returns `''`), `Column` nodes with their name, `Star`, `Select` nodes whose
`src` is the `this` expression of their `from` argument (`pre`/`post` are
the argument subtrees walked before/after `from`), and `other` interior
nodes tagged with their Python class name. -/
inductive Ast where
  | table (name als db : Text) : Ast
  | column (name : Text) : Ast
  | star : Ast
  | select (pre : List Ast) (src : Option Ast) (post : List Ast) : Ast
  | other (cls : Text) (children : List Ast) : Ast

/-- Python `type(node).__name__` for the modelled node kinds. -/
def typeName : Ast → Text
  | .table .. => txt "Table"
  | .column _ => txt "Column"
  | .star => txt "Star"
  | .select .. => txt "Select"
  | .other cls _ => cls

mutual
/-- Depth-first pre-order traversal (`node.walk()` of sqlglot). -/
def walkT : Ast → List Ast
  | .table n a d => [.table n a d]
  | .column n => [.column n]
  | .star => [.star]
  | .select pre src post =>
      .select pre src post ::
        (walkL pre ++
          (match src with
           | some x => walkT x
           | none => []) ++ walkL post)
  | .other cls cs => .other cls cs :: walkL cs

/-- Traversal of a list of sibling subtrees. -/
def walkL : List Ast → List Ast
  | [] => []
  | x :: xs => walkT x ++ walkL xs
end

/-- Extracted table reference (`{"name": ..., "alias": ..., "schema": ...}`
built by `_extract_tables_info`; `alias` is `None` when sqlglot returns
the empty string, `schema` is `node.db` verbatim). -/
structure TableRef where
  name : Text
  als : Option Text
  schema : Text
deriving DecidableEq, Repr

/-- Extracted column reference (`{"name": ..., "table": ..., "alias": None}`
built by `_extract_columns_info`). -/
structure ColumnRef where
  name : Text
  table : Option Text
  als : Option Text
deriving DecidableEq, Repr

/-- Deduplicating accumulation loop of `_extract_tables_info`: keep each
`Table` node's info the first time its lower-cased name is seen. -/
def dedupTables : List Ast → List Text → List TableRef
  | [], _ => []
  | .table n a d :: rest, seen =>
      if lowerText n ∈ seen then dedupTables rest seen
      else
        { name := n, als := if a = [] then none else some a, schema := d } ::
          dedupTables rest (lowerText n :: seen)
  | _ :: rest, seen => dedupTables rest seen

/-- `SQLValidator._extract_tables_info`. -/
def extractTablesInfo (parsed : Ast) : List TableRef :=
  dedupTables (walkT parsed) []

/-- Whether an AST node is a `Table` node (`isinstance(node, exp.Table)`). -/
def isTableNode : Ast → Bool
  | .table .. => true
  | _ => false

/-- The `table_nodes` list of `_extract_columns_info`: all `Table` nodes in
walk order. -/
def tableNodesOf (parsed : Ast) : List Ast :=
  (walkT parsed).filter isTableNode

/-- The `table_alias_map` built (and then never consulted) by
`_extract_columns_info`: alias→name and name→name entries, lower-cased. -/
def tableAliasMap (parsed : Ast) : List (Text × Text) :=
  (tableNodesOf parsed).flatMap fun node =>
    match node with
    | .table n a _ =>
        (if a = [] then [] else [(lowerText a, lowerText n)]) ++
          [(lowerText n, lowerText n)]
    | _ => []

/-- The table name assigned by one iteration of the parent walk in
`_extract_columns_info`: a `Select` ancestor whose `from` argument's `this`
is a `Table` contributes that table's lower-cased name. -/
def fromTableOf : Ast → Option Text
  | .select _ (some (.table n _ _)) _ => some (lowerText n)
  | _ => none

/-- Resolution of a column's owning table by walking its ancestor chain:
the Python loop walks from the node up to the root, overwriting `table_ref`
at every matching `Select`, so with the chain listed root-first the first
match wins. -/
def resolveColumnTable (anc : List Ast) : Option Text :=
  anc.findSome? fromTableOf

mutual
/-- Collect the `Column` nodes of a subtree in walk order, each paired with
its ancestor chain listed root-first (`anc` are the ancestors of the
argument node). -/
def colsT (anc : List Ast) : Ast → List (Text × List Ast)
  | .column n => [(n, anc)]
  | .table .. => []
  | .star => []
  | .select pre src post =>
      colsL (anc ++ [.select pre src post]) pre ++
        (match src with
         | some x => colsT (anc ++ [.select pre src post]) x
         | none => []) ++
        colsL (anc ++ [.select pre src post]) post
  | .other cls cs => colsL (anc ++ [.other cls cs]) cs

/-- Sibling-list version of `colsT`. -/
def colsL (anc : List Ast) : List Ast → List (Text × List Ast)
  | [] => []
  | x :: xs => colsT anc x ++ colsL anc xs
end

/-- The name stored in a `Table` node. -/
def tableNodeName : Ast → Text
  | .table n _ _ => n
  | _ => []

/-- Deduplicating accumulation loop of `_extract_columns_info`: resolve each
column's table (ancestor walk, then the single-table fallback) and keep the
first occurrence of each `(table or '', name)` key, lower-cased. -/
def dedupColumns (tableNodes : List Ast) :
    List (Text × List Ast) → List (Option Text × Text) → List ColumnRef
  | [], _ => []
  | (n, anc) :: rest, seen =>
      let tref : Option Text :=
        match resolveColumnTable anc with
        | some t => some t
        | none =>
            match tableNodes with
            | [tn] => some (lowerText (tableNodeName tn))
            | _ => none
      let key : Option Text × Text := (tref, lowerText n)
      if key ∈ seen then dedupColumns tableNodes rest seen
      else
        { name := n, table := tref, als := none } ::
          dedupColumns tableNodes rest (key :: seen)

/-- `SQLValidator._extract_columns_info`. -/
def extractColumnsInfo (parsed : Ast) : List ColumnRef :=
  dedupColumns (tableNodesOf parsed) (colsT [] parsed) []

/-- Rejection message of `SQLValidator.validate`, one constructor per
distinct failure message produced by the source (the spec's ten reason
codes `ForbiddenKeyword`, `SyntaxError`, `MultiStatementError`,
`DisallowedStatementType`, `BlockedTable`, `UnauthorizedTable`,
`BlockedColumn`, `UnauthorizedColumn`, `SystemSchemaAccess`,
`ForbiddenCTEOperation`); payloads model what the f-strings interpolate. -/
inductive Msg where
  | forbiddenKeyword : Msg
  | syntaxError (e : Nat) : Msg
  | multiStatement : Msg
  | disallowedStatementType (stype : Text) : Msg
  | blockedTable (name : Text) : Msg
  | unauthorizedTable : Msg
  | blockedColumn (tab col : Text) : Msg
  | unauthorizedColumn (tab : Option Text) (col : Text) : Msg
  | systemSchema : Msg
  | forbiddenCte : Msg
deriving DecidableEq, Repr

/-- The `details` dict of `SQLValidator.validate`. -/
structure Details where
  tables : List TableRef
  columns : List ColumnRef
deriving DecidableEq, Repr

/-- The `(is_valid, error_message, details)` tuple returned by
`SQLValidator.validate`. -/
structure ValidationResult where
  valid : Bool
  message : Option Msg
  details : Option Details
deriving DecidableEq, Repr

/-- The access-control state of a `SQLValidator` instance (its five policy
fields; the compiled regex patterns are a fixed constant and are modelled
directly by `scanForbidden`). -/
structure Validator where
  allowed_statements : List Text
  blocked_tables : List Text
  blocked_columns : List (Text × List Text)
  allowed_tables : List Text
  allowed_columns : List (Text × List Text)
deriving DecidableEq, Repr

/-- `SQLValidator.ALLOWED_STATEMENTS = {"SELECT"}`. -/
def ALLOWED_STATEMENTS : List Text := [txt "SELECT"]

/-- `SQLValidator.__init__`: `allowed_statements or {"SELECT"}` (Python `or`
takes the default on `None` or an empty set), and lower-casing of every
blocked/allowed table and column name and every column-map key. -/
def mkValidator (allowedStatements : Option (List Text))
    (blockedTables : Option (List Text))
    (blockedColumns : Option (List (Text × List Text)))
    (allowedTables : Option (List Text))
    (allowedColumns : Option (List (Text × List Text))) : Validator :=
  { allowed_statements :=
      match allowedStatements with
      | some s => if s = [] then ALLOWED_STATEMENTS else s
      | none => ALLOWED_STATEMENTS
    blocked_tables := (blockedTables.getD []).map lowerText
    blocked_columns :=
      (blockedColumns.getD []).map fun kv => (lowerText kv.1, kv.2.map lowerText)
    allowed_tables := (allowedTables.getD []).map lowerText
    allowed_columns :=
      (allowedColumns.getD []).map fun kv => (lowerText kv.1, kv.2.map lowerText) }

/-- A validator constructed with every argument defaulted
(`SQLValidator()`). -/
def defaultValidator : Validator := mkValidator none none none none none

/-- `SQLValidator.set_blocked_tables`. -/
def set_blocked_tables (v : Validator) (tables : List Text) : Validator :=
  { v with blocked_tables := tables.map lowerText }

/-- `SQLValidator.set_blocked_columns`. -/
def set_blocked_columns (v : Validator) (columns : List (Text × List Text)) :
    Validator :=
  { v with blocked_columns :=
      columns.map fun kv => (lowerText kv.1, kv.2.map lowerText) }

/-- `SQLValidator.set_allowed_tables`. -/
def set_allowed_tables (v : Validator) (tables : List Text) : Validator :=
  { v with allowed_tables := tables.map lowerText }

/-- `SQLValidator.set_allowed_columns`. -/
def set_allowed_columns (v : Validator) (columns : List (Text × List Text)) :
    Validator :=
  { v with allowed_columns :=
      columns.map fun kv => (lowerText kv.1, kv.2.map lowerText) }

/-- Python dict lookup on a table→columns map. -/
def dlookup (d : List (Text × List Text)) (k : Text) : Option (List Text) :=
  match d.find? fun kv => kv.1 = k with
  | some kv => some kv.2
  | none => none

/-- `SQLValidator._is_system_table`: the lower-cased name starts with one of
`SYSTEM_SCHEMA_PREFIXES = ("pg_", "information_schema")` or equals
`"information_schema"`. -/
def isSystemTable (name : Text) : Bool :=
  let nameLower := lowerText name
  startsWithT (txt "pg_") nameLower ||
    startsWithT (txt "information_schema") nameLower ||
    (nameLower = txt "information_schema" : Bool)

/-- Step 6 of `validate` for one column: the blocked-columns check followed
by the allowed-columns check, returning the first rejection. -/
def checkOneColumn (v : Validator) (c : ColumnRef) : Option Msg :=
  let colName := lowerText c.name
  match c.table.map lowerText with
  | some tn =>
      if (match dlookup v.blocked_columns tn with
          | some bs => decide (colName ∈ bs)
          | none => false) then
        some (.blockedColumn tn c.name)
      else if v.allowed_columns ≠ [] then
        match dlookup v.allowed_columns tn with
        | some allowedSet =>
            if colName ∉ allowedSet then
              some (.unauthorizedColumn (some tn) c.name)
            else none
        | none => none
      else none
  | none =>
      if v.allowed_columns ≠ [] then
        if v.allowed_columns.any fun kv => decide (colName ∈ kv.2) then none
        else some (.unauthorizedColumn none c.name)
      else none

/-- The Step 6 loop of `validate`: first rejecting column wins. -/
def checkColumns (v : Validator) (cols : List ColumnRef) : Option Msg :=
  cols.findSome? (checkOneColumn v)

/-- `SQLValidator.validate`, the full pipeline: comment removal, regex
keyword scan, parse (via the `parse` oracle standing for
`sqlglot.parse(..., read="postgres")`), single-statement check,
statement-type check, table extraction, blocked-table and allowed-table
checks, column checks, system-table check, and the CTE scan.

The `.error` channel of this oracle models exactly
`sqlglot.errors.ParseError` — the ONE exception class the source's
`try/except ParseError` catches and maps to the syntax-error rejection.
sqlglot can also raise sibling exception classes (e.g. `TokenizeError`,
which is not a subclass of `ParseError`) that the `except` clause does not
catch; that uncaught-propagation path is modelled separately by
`validateExc` below over the richer `ParseOutcome` type. -/
def validate (parse : Text → Except Nat (List Ast)) (v : Validator)
    (sql : Text) : ValidationResult :=
  let cleaned := removeComments sql
  if scanForbidden cleaned then
    { valid := false, message := some .forbiddenKeyword, details := none }
  else
    match parse cleaned with
    | .error e =>
        { valid := false, message := some (.syntaxError e), details := none }
    | .ok stmts =>
        match stmts with
        | [parsed] =>
            let stype := upperText (typeName parsed)
            if stype ∉ v.allowed_statements then
              { valid := false, message := some (.disallowedStatementType stype),
                details := none }
            else
              let tables := extractTablesInfo parsed
              match tables.find? fun t => decide (lowerText t.name ∈ v.blocked_tables) with
              | some t =>
                  { valid := false, message := some (.blockedTable t.name),
                    details := some { tables := tables, columns := [] } }
              | none =>
                  if v.allowed_tables ≠ [] ∧
                      ¬ (tables.any fun t => decide (lowerText t.name ∈ v.allowed_tables)) then
                    { valid := false, message := some .unauthorizedTable,
                      details := some { tables := tables, columns := [] } }
                  else
                    let columns := extractColumnsInfo parsed
                    match checkColumns v columns with
                    | some m =>
                        { valid := false, message := some m,
                          details := some { tables := tables, columns := columns } }
                    | none =>
                        if tables.filter (fun t => isSystemTable t.name) ≠ [] then
                          { valid := false, message := some .systemSchema,
                            details := some { tables := tables, columns := columns } }
                        else if containsForbiddenCte cleaned then
                          { valid := false, message := some .forbiddenCte,
                            details := some { tables := tables, columns := columns } }
                        else
                          { valid := true, message := none,
                            details := some { tables := tables, columns := columns } }
        | _ =>
            { valid := false, message := some .multiStatement, details := none }

/-- A `validate` call viewed as a state transition on the validator object:
the method reads `self` and never assigns to it, so the state is returned
unchanged. -/
def validateCall (parse : Text → Except Nat (List Ast)) (v : Validator)
    (sql : Text) : ValidationResult × Validator :=
  (validate parse v sql, v)

/-- Lower-casing a code point is idempotent. -/
theorem lowerCp_idem (n : Nat) : lowerCp (lowerCp n) = lowerCp n := by
  unfold lowerCp
  split
  · split <;> omega
  · rfl

/-- Lower-casing a text is idempotent. -/
theorem lowerText_idem (s : Text) : lowerText (lowerText s) = lowerText s := by
  induction s with
  | nil => rfl
  | cons a s ih =>
      simp only [lowerText, List.map_cons, List.map_map] at ih ⊢
      exact List.cons_eq_cons.mpr ⟨lowerCp_idem a, ih⟩

/-- Every member of a lower-cased list is a fixed point of `lowerText`. -/
theorem mem_map_lower {l : List Text} {n : Text} (h : n ∈ l.map lowerText) :
    lowerText n = n := by
  rcases List.mem_map.mp h with ⟨m, _, rfl⟩
  exact lowerText_idem m

/-- Taking with the same predicate just dropped with yields nothing. -/
theorem takeWhile_dropWhile_self (p : Nat → Bool) (l : Text) :
    (l.dropWhile p).takeWhile p = [] := by
  induction l with
  | nil => rfl
  | cons a l ih =>
      by_cases h : p a
      · simpa [List.dropWhile_cons, h] using ih
      · simp [List.dropWhile_cons, h, List.takeWhile_cons]

/-- The second capture group of the CTE pattern is always empty: the greedy
first `[^)]*` consumes the entire run of non-parenthesis characters, leaving
nothing for `([^\)]*)`. -/
theorem matchCteAt_some_nil (s g : Text) (h : matchCteAt s = some g) : g = [] := by
  unfold matchCteAt at h
  split at h
  · exact absurd h (by simp)
  · exact absurd h (by simp)
  · split at h
    · split at h
      · exact absurd h (by simp)
      · split at h
        · exact absurd h (by simp)
        · split at h
          · split at h
            · exact absurd h (by simp)
            · split at h
              · split at h
                · rw [takeWhile_dropWhile_self] at h
                  cases h
                  rfl
                · exact absurd h (by simp)
              · exact absurd h (by simp)
          · exact absurd h (by simp)
    · exact absurd h (by simp)

/-- Leftmost search inherits the empty capture. -/
theorem cteSearch_some_nil (s g : Text) (h : cteSearch s = some g) : g = [] := by
  induction s with
  | nil => exact matchCteAt_some_nil [] g (by simpa [cteSearch] using h)
  | cons c rest ih =>
      rw [cteSearch] at h
      split at h
      · cases h
        exact matchCteAt_some_nil _ _ (by assumption)
      · exact ih h

/-- The CTE injection detector can never fire: its captured body is always
the empty string, which contains none of the dangerous keywords. -/
theorem containsForbiddenCte_false (sql : Text) :
    containsForbiddenCte sql = false := by
  unfold containsForbiddenCte
  split
  · rename_i g h
    rw [cteSearch_some_nil _ _ h]
    decide
  · rfl

/-- Classifies the messages produced at or after the table-extraction stage
of `validate` (the stages at which the `details` dict has already been
attached to the return value), together with the success case. -/
def lateStage : Option Msg → Bool
  | none => true
  | some (.blockedTable _) => true
  | some .unauthorizedTable => true
  | some (.blockedColumn _ _) => true
  | some (.unauthorizedColumn _ _) => true
  | some .systemSchema => true
  | some .forbiddenCte => true
  | some _ => false

/-- The per-column check only ever produces column-stage messages. -/
theorem checkOneColumn_lateStage (v : Validator) (c : ColumnRef) (m : Msg)
    (h : checkOneColumn v c = some m) : lateStage (some m) = true := by
  simp only [checkOneColumn] at h
  split at h
  · split at h
    · cases h; rfl
    · split at h
      · split at h
        · split at h
          · cases h; rfl
          · cases h
        · cases h
      · cases h
  · split at h
    · split at h
      · cases h
      · cases h; rfl
    · cases h

/-- The column-check loop only ever produces column-stage messages. -/
theorem checkColumns_lateStage (v : Validator) (cols : List ColumnRef) (m : Msg)
    (h : checkColumns v cols = some m) : lateStage (some m) = true := by
  induction cols with
  | nil => simp [checkColumns] at h
  | cons c rest ih =>
      rw [checkColumns, List.findSome?_cons] at h
      split at h
      · rename_i o heq
        cases h
        exact checkOneColumn_lateStage v c m heq
      · exact ih h

/-- Input of the allow-list scenario: a join of the allowed table `a` with
the unauthorised table `b`. -/
def sqlC1 : Text := txt "SELECT * FROM a JOIN b ON a.x = b.y"

/-- The sqlglot parse of `sqlC1`: a `Select` with a star projection, `from`
table `a`, and a `Join` over table `b` with an `EQ` condition on columns
`x`, `y`. -/
def astC1 : Ast :=
  .select [.star] (some (.table (txt "a") [] []))
    [.other (txt "Join")
      [.table (txt "b") [] [], .other (txt "EQ") [.column (txt "x"), .column (txt "y")]]]

/-- Parse oracle for the allow-list scenario. -/
def parseC1 : Text → Except Nat (List Ast) := fun _ => .ok [astC1]

/-- A validator whose `allowed_tables` is exactly `{a}`. -/
def vC1 : Validator := mkValidator none none none (some [txt "a"]) none

/-- C1: the claim fails on the code.  With `allowedTables = {a}`, a
statement referencing `a` joined with `b` — where `b` is absent from the
allow-list — is ACCEPTED: step 5 of `validate` rejects only when no
referenced table at all is in `allowed_tables` (`not any(...)`), not when
some referenced table is outside it, contradicting the claim, the spec, and
the constructor's own docstring (`allowed_tables: If set, only these tables
are allowed` / `all others blocked`). -/
theorem c1_join_with_unauthorized_table_accepted :
    vC1.allowed_tables = [txt "a"] ∧
    (extractTablesInfo astC1).any (fun t => decide (lowerText t.name ∉ vC1.allowed_tables)) = true ∧
    (validate parseC1 vC1 sqlC1).valid = true := by
  refine ⟨by decide, by decide, by decide⟩

/-- Input of the system-schema scenario: a schema-qualified reference to
`information_schema.tables`. -/
def sqlC2 : Text := txt "SELECT * FROM information_schema.tables"

/-- The sqlglot parse of `sqlC2`: the table node's `name` is `tables` and
its `db` is `information_schema`. -/
def astC2 : Ast :=
  .select [.star] (some (.table (txt "tables") [] (txt "information_schema"))) []

/-- Parse oracle for the system-schema scenario. -/
def parseC2 : Text → Except Nat (List Ast) := fun _ => .ok [astC2]

/-- C2: the claim fails on the code.  `_is_system_table` inspects only the
table's own extracted name (`node.name`, here `tables`), never the schema
qualifier (`node.db`), so `SELECT * FROM information_schema.tables` is
accepted outright — the repository's own tests
(`test_reject_information_schema`, `test_select_from_information_schema`)
expect this very statement to be rejected. -/
theorem c2_information_schema_qualified_accepted :
    isSystemTable (txt "tables") = false ∧
    validate parseC2 defaultValidator sqlC2 =
      { valid := true, message := none,
        details := some
          { tables := [{ name := txt "tables", als := none,
                         schema := txt "information_schema" }],
            columns := [] } } := by
  refine ⟨by decide, by decide⟩

/-- C3 (amended): the denylist scan is sound for the twelve keywords the
code actually compiles — any cleaned text containing a whole-word,
case-insensitive occurrence of INSERT, UPDATE, DELETE, DROP, TRUNCATE,
ALTER, CREATE, GRANT, REVOKE, EXECUTE, CONNECT, or USE is rejected
immediately with the forbidden-keyword message and null details, before the
parser (for any parse oracle) and before any later stage.  COPY, VACUUM,
LOAD, and DO are NOT part of the compiled denylist (see the
counterexample). -/
theorem c3_keyword_denylist_sound (parse : Text → Except Nat (List Ast))
    (v : Validator) (s : Text)
    (h : forbiddenKeywords.any (fun kw => containsWord kw (removeComments s)) = true) :
    validate parse v s =
      { valid := false, message := some .forbiddenKeyword, details := none } := by
  have hscan : scanForbidden (removeComments s) = true := by
    simp only [scanForbidden, h, Bool.true_or]
  simp only [validate, hscan, if_true]

/-- Witness for C3 at the concrete statement `DROP TABLE users` (parse
oracle irrelevant: the scan fires first). -/
theorem c3_keyword_denylist_sound_witness :
    forbiddenKeywords.any
        (fun kw => containsWord kw (removeComments (txt "DROP TABLE users"))) = true ∧
    validate (fun _ => .error 0) defaultValidator (txt "DROP TABLE users") =
      { valid := false, message := some .forbiddenKeyword, details := none } :=
  ⟨by decide, c3_keyword_denylist_sound (fun _ => .error 0) defaultValidator
    (txt "DROP TABLE users") (by decide)⟩

/-- Input whose comment-stripped text contains the whole word `copy`
(case-insensitively) as a quoted column name. -/
def sqlC3 : Text := txt "SELECT \x22copy\x22 FROM t"

/-- The sqlglot parse of `sqlC3`: a `Select` of the quoted column `copy`
from table `t`. -/
def astC3 : Ast :=
  .select [.column (txt "copy")] (some (.table (txt "t") [] [])) []

/-- Parse oracle for the COPY counterexample. -/
def parseC3 : Text → Except Nat (List Ast) := fun _ => .ok [astC3]

/-- C3 (counterexample): the claim as stated is false — `COPY` (and
likewise VACUUM, LOAD, DO) is absent from `FORBIDDEN_PATTERNS`, so an input
containing the whole word `copy` passes the scan and, parsing as a plain
SELECT, is accepted outright rather than rejected with ForbiddenKeyword or
any downstream reason. -/
theorem c3_copy_keyword_not_denylisted :
    containsWord (txt "COPY") (removeComments sqlC3) = true ∧
    (validate parseC3 defaultValidator sqlC3).valid = true := by
  refine ⟨by decide, by decide⟩

/-- The multi-statement smuggling scenario from the spec. -/
def sqlC4 : Text := txt "SELECT * FROM users; DROP TABLE users;"

/-- The two statements sqlglot would produce for `sqlC4` (never consulted:
the keyword scan fires first). -/
def parseC4 : Text → Except Nat (List Ast) := fun _ =>
  .ok [.select [.star] (some (.table (txt "users") [] [])) [],
       .other (txt "Drop") [.table (txt "users") [] []]]

/-- C4 (counterexample): the scenario input
`SELECT * FROM users; DROP TABLE users;` is rejected with the
forbidden-keyword reason (its text contains the whole word DROP, and the
regex scan runs before parsing), not with the multi-statement reason the
claim asserts. -/
theorem c4_scenario_rejected_as_keyword_not_multistatement :
    validate parseC4 defaultValidator sqlC4 =
      { valid := false, message := some .forbiddenKeyword, details := none } ∧
    Msg.forbiddenKeyword ≠ Msg.multiStatement := by
  refine ⟨by decide, by decide⟩

/-- C4 (amended): for inputs that pass the keyword scan, parsing into more
than one top-level statement is rejected with the multi-statement reason
and null details, regardless of what the statements are. -/
theorem c4_multi_statement_rejected (parse : Text → Except Nat (List Ast))
    (v : Validator) (s : Text) (stmts : List Ast)
    (hscan : scanForbidden (removeComments s) = false)
    (hp : parse (removeComments s) = .ok stmts)
    (hlen : 1 < stmts.length) :
    validate parse v s =
      { valid := false, message := some .multiStatement, details := none } := by
  match stmts, hlen with
  | a :: b :: rest, _ =>
      simp only [validate, hscan, Bool.false_eq_true, if_false, hp]

/-- Witness for C4 at two benign SELECT statements separated by a
semicolon. -/
theorem c4_multi_statement_rejected_witness :
    scanForbidden (removeComments (txt "SELECT a FROM t; SELECT b FROM u")) = false ∧
    validate
        (fun _ => .ok [.select [.column (txt "a")] (some (.table (txt "t") [] [])) [],
                       .select [.column (txt "b")] (some (.table (txt "u") [] [])) []])
        defaultValidator (txt "SELECT a FROM t; SELECT b FROM u") =
      { valid := false, message := some .multiStatement, details := none } :=
  ⟨by decide,
    c4_multi_statement_rejected _ defaultValidator
      (txt "SELECT a FROM t; SELECT b FROM u")
      [.select [.column (txt "a")] (some (.table (txt "t") [] [])) [],
       .select [.column (txt "b")] (some (.table (txt "u") [] [])) []]
      (by decide) rfl (by decide)⟩

/-- Outcome of one `sqlglot.parse` call, with the exception classes the
source's `try/except` distinguishes kept apart: `parseError` is
`sqlglot.errors.ParseError` (the only class the `except ParseError` clause
catches), while `otherExc` is any sibling sqlglot exception — e.g.
`TokenizeError`, raised on an unterminated string literal, which is NOT a
subclass of `ParseError`. -/
inductive ParseOutcome where
  | ok (stmts : List Ast) : ParseOutcome
  | parseError (e : Nat) : ParseOutcome
  | otherExc (e : Nat) : ParseOutcome

/-- Python-exception-faithful model of a `SQLValidator.validate` call:
`.ok r` is a normal return of the tuple `r`, `.error e` is an exception
propagating uncaught past the `validate` boundary.  The keyword scan runs
before the parser, so a scan rejection never reaches it; a `ParseError` is
caught and mapped to the syntax-error rejection; any other parser exception
is NOT matched by `except ParseError` and escapes; and on a normal parse
the remainder of the pipeline (which raises nothing) continues exactly as
in `validate`. -/
def validateExc (parse : Text → ParseOutcome) (v : Validator) (sql : Text) :
    Except Nat ValidationResult :=
  let cleaned := removeComments sql
  if scanForbidden cleaned then
    .ok { valid := false, message := some .forbiddenKeyword, details := none }
  else
    match parse cleaned with
    | .parseError e =>
        .ok { valid := false, message := some (.syntaxError e), details := none }
    | .otherExc e => .error e
    | .ok stmts => .ok (validate (fun _ => .ok stmts) v sql)

/-- Input with an unterminated string literal: it passes comment stripping
and the keyword scan, and `sqlglot.parse` raises `TokenizeError` on it. -/
def sqlC5 : Text := txt "SELECT 'abc"

/-- Parse oracle for `sqlC5`: the parser call raises a non-`ParseError`
sqlglot exception (`TokenizeError`). -/
def parseC5 : Text → ParseOutcome := fun _ => .otherExc 3

/-- C5: the claim fails on the code.  `validate` catches only
`sqlglot.errors.ParseError` (line 96); `sqlglot.parse` also raises the
sibling class `TokenizeError` — for instance on the unterminated string
literal `SELECT 'abc`, which passes the keyword scan (first conjunct) and
reaches the parser — and that exception propagates uncaught past the
`validate` boundary (second conjunct) instead of being mapped to a
SyntaxError rejection.  A genuine `ParseError` on the same input IS caught
and mapped to the structured syntax-error result (third conjunct), so the
escape is specific to the uncaught exception classes. -/
theorem c5_tokenize_error_escapes :
    scanForbidden (removeComments sqlC5) = false ∧
    validateExc parseC5 defaultValidator sqlC5 = .error 3 ∧
    validateExc (fun _ => .parseError 7) defaultValidator sqlC5 =
      .ok { valid := false, message := some (.syntaxError 7), details := none } := by
  refine ⟨by decide, rfl, rfl⟩

/-- Input of the statement-type counterexample: a standalone VALUES
statement. -/
def sqlC6 : Text := txt "VALUES (1)"

/-- Parse oracle for `sqlC6`: a single `Values` statement. -/
def parseC6 : Text → Except Nat (List Ast) := fun _ =>
  .ok [.other (txt "Values") [.other (txt "Tuple") []]]

/-- C6 (counterexample): structural parsing succeeds on `VALUES (1)` (the
oracle returns exactly one statement), yet the statement-type rejection
returns null details, contradicting the claim that details is non-null
whenever parsing succeeded (the multi-statement rejection behaves the same
way). -/
theorem c6_type_stage_rejection_has_null_details :
    parseC6 (removeComments sqlC6) =
      .ok [.other (txt "Values") [.other (txt "Tuple") []]] ∧
    validate parseC6 defaultValidator sqlC6 =
      { valid := false, message := some (.disallowedStatementType (txt "VALUES")),
        details := none } := by
  refine ⟨rfl, by decide⟩

/-- C6 (amended): the result invariants that actually hold — the message is
null exactly when the statement is valid, and details is non-null exactly
for outcomes at or after the table-extraction stage (success, blocked or
unauthorized table, blocked or unauthorized column, system schema, CTE);
details is null not only for pre-parse and parse-failure rejections but
also for the multi-statement and statement-type rejections, even though
parsing succeeded there. -/
theorem c6_result_field_invariants (parse : Text → Except Nat (List Ast))
    (v : Validator) (s : Text) :
    ((validate parse v s).valid = true ↔ (validate parse v s).message = none) ∧
    (validate parse v s).details.isSome = lateStage (validate parse v s).message := by
  constructor
  · simp only [validate]
    repeat' split
    all_goals simp
  · simp only [validate]
    repeat' split
    all_goals try simp [lateStage]
    rename_i m heq
    simpa [lateStage] using checkColumns_lateStage v _ m heq

/-- Input of the CTE-detector scenario: a CTE whose body contains the
dangerous keyword UPDATE as a substring (`updated_at`, which the
word-boundary denylist of step 2 deliberately does not match). -/
def sqlC7 : Text := txt "WITH x AS (SELECT updated_at FROM t) SELECT a FROM x"

/-- The sqlglot parse of `sqlC7`: a `Select` whose `with` argument holds the
CTE subquery over `t`, projecting `a` from `x`. -/
def astC7 : Ast :=
  .select
    [.other (txt "With")
      [.other (txt "CTE")
        [.select [.column (txt "updated_at")] (some (.table (txt "t") [] [])) []]],
     .column (txt "a")]
    (some (.table (txt "x") [] [])) []

/-- Parse oracle for the CTE scenario. -/
def parseC7 : Text → Except Nat (List Ast) := fun _ => .ok [astC7]

/-- C7: the claim is right about the intent but the code cannot implement
it: in the pattern `WITH\s+(\w+)\s+AS\s*\([^)]*([^\)]*)\)` the greedy first
`[^)]*` swallows the whole parenthesised body, so the second capture group
— the only thing `_contains_forbidden_cte` inspects — is always the empty
string and the detector never fires on ANY input (fourth conjunct).  On
`sqlC7` the pattern does match (captured body empty, first conjunct), the
upper-cased text does contain the dangerous keyword UPDATE (second
conjunct), and `validate` nevertheless accepts the statement (third
conjunct) instead of rejecting it with the ForbiddenCTEOperation reason. -/
theorem c7_cte_detector_never_fires :
    cteSearch (upperText (removeComments sqlC7)) = some [] ∧
    containsSub (txt "UPDATE") (upperText (removeComments sqlC7)) = true ∧
    (validate parseC7 defaultValidator sqlC7).valid = true ∧
    (∀ sql : Text, containsForbiddenCte sql = false) :=
  ⟨by decide, by decide, by decide, containsForbiddenCte_false⟩

/-- C8: blocked-table completeness.  Whenever a statement reaches the
access-control stage (the scan passed, the oracle produced exactly one
statement, its type is allowed) and any extracted table reference — which
carries the physical table name even when the query used an alias — has its
lower-cased name in `blocked_tables`, `validate` rejects with the
blocked-table message naming a referenced blocked table (the first one in
extraction order), with details carrying the full table list. -/
theorem c8_blocked_table_rejected (parse : Text → Except Nat (List Ast))
    (v : Validator) (s : Text) (parsed : Ast) (t : TableRef)
    (hscan : scanForbidden (removeComments s) = false)
    (hp : parse (removeComments s) = .ok [parsed])
    (htype : upperText (typeName parsed) ∈ v.allowed_statements)
    (ht : t ∈ extractTablesInfo parsed)
    (hb : lowerText t.name ∈ v.blocked_tables) :
    ∃ t', t' ∈ extractTablesInfo parsed ∧ lowerText t'.name ∈ v.blocked_tables ∧
      validate parse v s =
        { valid := false, message := some (.blockedTable t'.name),
          details := some { tables := extractTablesInfo parsed, columns := [] } } := by
  have hex : ∃ x, x ∈ extractTablesInfo parsed ∧
      (fun t => decide (lowerText t.name ∈ v.blocked_tables)) x = true :=
    ⟨t, ht, by simpa using hb⟩
  have hsome : ((extractTablesInfo parsed).find?
      (fun t => decide (lowerText t.name ∈ v.blocked_tables))).isSome :=
    List.find?_isSome.mpr hex
  obtain ⟨t', hfind⟩ := Option.isSome_iff_exists.mp hsome
  refine ⟨t', List.mem_of_find?_eq_some hfind,
    by simpa using List.find?_some hfind, ?_⟩
  simp only [validate, hscan, Bool.false_eq_true, if_false, hp]
  rw [if_neg (not_not_intro htype), hfind]

/-- Witness for C8: `SELECT id FROM users u` (alias `u` recorded, physical
name `users` checked) against `blocked_tables = {USERS}` (lower-cased on
construction). -/
theorem c8_blocked_table_rejected_witness :
    ∃ t', t' ∈ extractTablesInfo (.select [.column (txt "id")]
        (some (.table (txt "users") (txt "u") [])) []) ∧
      lowerText t'.name ∈
        (mkValidator none (some [txt "USERS"]) none none none).blocked_tables ∧
      validate
          (fun _ => .ok [.select [.column (txt "id")]
            (some (.table (txt "users") (txt "u") [])) []])
          (mkValidator none (some [txt "USERS"]) none none none)
          (txt "SELECT id FROM users u") =
        { valid := false, message := some (.blockedTable t'.name),
          details := some
            { tables := extractTablesInfo (.select [.column (txt "id")]
                (some (.table (txt "users") (txt "u") [])) []),
              columns := [] } } :=
  c8_blocked_table_rejected _ _ (txt "SELECT id FROM users u")
    (.select [.column (txt "id")] (some (.table (txt "users") (txt "u") [])) [])
    { name := txt "users", als := some (txt "u"), schema := [] }
    (by decide) rfl (by decide) (by decide) (by decide)

/-- C9: determinism and statelessness.  A `validate` call leaves the
validator state untouched, and running the same SQL again on the
post-call state yields the identical result — the method reads only the
immutable text and its policy fields and never writes. -/
theorem c9_validate_deterministic (parse : Text → Except Nat (List Ast))
    (v : Validator) (s : Text) :
    (validateCall parse v s).2 = v ∧
    (validateCall parse (validateCall parse v s).2 s).1 =
      (validateCall parse v s).1 :=
  ⟨rfl, rfl⟩

/-- Every entry of a lower-cased column map has a lower-cased key and
lower-cased members. -/
theorem mem_map_lower_kv {d : List (Text × List Text)} {kv : Text × List Text}
    (h : kv ∈ d.map fun kv => (lowerText kv.1, kv.2.map lowerText)) :
    lowerText kv.1 = kv.1 ∧ ∀ c ∈ kv.2, lowerText c = c := by
  rcases List.mem_map.mp h with ⟨⟨k, cols⟩, _, rfl⟩
  exact ⟨lowerText_idem k, fun c hc => mem_map_lower hc⟩

/-- C10: after construction and after every runtime setter, every table
name, column-map key, and column name stored in `blocked_tables`,
`blocked_columns`, `allowed_tables`, and `allowed_columns` is a fixed point
of lower-casing — the normalization that makes the name comparisons in
`validate` (which lower-case the extracted side) case-insensitive. -/
theorem c10_policy_names_lowercased
    (stmtsArg blockedT : Option (List Text))
    (blockedC : Option (List (Text × List Text)))
    (allowedT : Option (List Text))
    (allowedC : Option (List (Text × List Text)))
    (v : Validator) (ts : List Text) (cs : List (Text × List Text)) :
    (∀ n ∈ (mkValidator stmtsArg blockedT blockedC allowedT allowedC).blocked_tables,
        lowerText n = n) ∧
    (∀ n ∈ (mkValidator stmtsArg blockedT blockedC allowedT allowedC).allowed_tables,
        lowerText n = n) ∧
    (∀ kv ∈ (mkValidator stmtsArg blockedT blockedC allowedT allowedC).blocked_columns,
        lowerText kv.1 = kv.1 ∧ ∀ c ∈ kv.2, lowerText c = c) ∧
    (∀ kv ∈ (mkValidator stmtsArg blockedT blockedC allowedT allowedC).allowed_columns,
        lowerText kv.1 = kv.1 ∧ ∀ c ∈ kv.2, lowerText c = c) ∧
    (∀ n ∈ (set_blocked_tables v ts).blocked_tables, lowerText n = n) ∧
    (∀ n ∈ (set_allowed_tables v ts).allowed_tables, lowerText n = n) ∧
    (∀ kv ∈ (set_blocked_columns v cs).blocked_columns,
        lowerText kv.1 = kv.1 ∧ ∀ c ∈ kv.2, lowerText c = c) ∧
    (∀ kv ∈ (set_allowed_columns v cs).allowed_columns,
        lowerText kv.1 = kv.1 ∧ ∀ c ∈ kv.2, lowerText c = c) :=
  ⟨fun _ h => mem_map_lower h,
   fun _ h => mem_map_lower h,
   fun _ h => mem_map_lower_kv h,
   fun _ h => mem_map_lower_kv h,
   fun _ h => mem_map_lower h,
   fun _ h => mem_map_lower h,
   fun _ h => mem_map_lower_kv h,
   fun _ h => mem_map_lower_kv h⟩

/-- Witness for C10: constructing with the upper-cased name `USERS` stores
`users`, and the stored name is a lower-casing fixed point by the theorem. -/
theorem c10_policy_names_lowercased_witness :
    (txt "users") ∈
      (mkValidator none (some [txt "USERS"]) none none none).blocked_tables ∧
    lowerText (txt "users") = txt "users" :=
  ⟨by decide,
    (c10_policy_names_lowercased none (some [txt "USERS"]) none none none
      defaultValidator [] []).1 (txt "users") (by decide)⟩
